import Mathlib

/-!
Verification of the plant-growth simulation (`main.py`).

The grid is the source's `MAP.grid`, a dict of rows indexed `grid[row][col]`;
the cell at coordinate `(x, y)` is stored at `grid[y][x]`.  Machine integers
are modelled as `ℤ` and Python floats as `ℚ` (all facts proved about them are
far away from any rounding boundary).  Fallible code — `KeyError` on a dict
read, `IndexError` on `[0]` of an empty list, `ZeroDivisionError` — is
modelled with `Option`, `none` standing for the raised exception.  The
`randint` calls are modelled by oracle parameters (`r` for `randint(1, 2)`,
`pick` for the index `randint(0, len - 1)`, taken modulo the length so that
every concrete index is reachable).
-/

namespace PlantSim

/-- `MAP_WIDTH = SCREEN_WIDTH // CELL_SIZE = 800 // 5`. -/
def MAP_WIDTH : ℤ := 160

/-- `MAP_HEIGHT = SCREEN_HEIGHT // CELL_SIZE = 800 // 5`. -/
def MAP_HEIGHT : ℤ := 160

/-- Kinds of plant-organ cells (`Seed`, `Stem`, `Leaf`, `Root`, `Wood`). -/
inductive PKind where
  | seed
  | stem
  | leaf
  | root
  | wood
  deriving DecidableEq, Repr

/-- A grid cell, the tagged union of the source's cell classes.  Each cell
stores the coordinates it was constructed with and its stored display color
(`self.color`); `Air` additionally stores `sunlight` and the cached
`last_sun_position`, `Dirt` its `humidity`, `WaterDrop` its fixed `humidity`
and `stopped` flag.  `Rock` and `WaterDrop` have fixed colors. -/
inductive Cell where
  | air (x y : ℤ) (sunlight : ℚ) (lastSun : Option (ℤ × ℤ)) (color : ℚ × ℚ × ℚ)
  | dirt (x y : ℤ) (humidity : ℤ) (color : ℚ × ℚ × ℚ)
  | rock (x y : ℤ)
  | waterdrop (x y : ℤ) (humidity : ℤ) (stopped : Bool)
  | organ (kind : PKind) (x y : ℤ) (color : ℚ × ℚ × ℚ)
  deriving DecidableEq, Repr

/-- The map grid `MAP.grid`: `g r c` is the cell stored at row `r`, column
`c`.  The source reads the cell at coordinate `(x, y)` as `MAP.grid[y][x]`. -/
def Grid : Type := ℤ → ℤ → Cell

/-- Reading `MAP.grid[r][c]`.  The generated grid has rows `0 ≤ r < 160` each
holding columns `0 ≤ c < 160`; any other key raises `KeyError`, modelled as
`none`. -/
def Grid.get (g : Grid) (r c : ℤ) : Option Cell :=
  if 0 ≤ r ∧ r < MAP_HEIGHT ∧ 0 ≤ c ∧ c < MAP_WIDTH then some (g r c) else none

/-- Writing `MAP.grid[r][c] = cell` (dict assignment on an existing row,
always succeeds). -/
def Grid.set (g : Grid) (r c : ℤ) (cell : Cell) : Grid :=
  fun r' c' => if r' = r ∧ c' = c then cell else g r' c'

/-- `Air(x, y)`: `sunlight = 0`, no cached sun position, color
`(0, 91 + 0, 150 + 0)`. -/
def freshAir (x y : ℤ) : Cell :=
  Cell.air x y 0 none (0, 91, 150)

/-- The stored display color `self.color` of a cell. -/
def storedColor : Cell → ℚ × ℚ × ℚ
  | Cell.air _ _ _ _ col => col
  | Cell.dirt _ _ _ col => col
  | Cell.rock _ _ => (112, 128, 144)
  | Cell.waterdrop _ _ _ _ => (0, 0, 100)
  | Cell.organ _ _ _ col => col

/-- `fix_color`: clamp every channel of a color into `[0, 255]`.  Applied at
draw time (`CellObject.draw` calls `pygame.draw.rect(screen,
fix_color(self.color), ...)`), never to the stored color. -/
def fix_color (c : ℚ × ℚ × ℚ) : ℚ × ℚ × ℚ :=
  (max 0 (min 255 c.1), max 0 (min 255 c.2.1), max 0 (min 255 c.2.2))

/-- `Air.update`: when the sun anchor has moved since the cached position,
recompute `sunlight = 100 - 1.2 * (|sun.x - x| + |sun.y - y|)` and the stored
color `(0, 91 + sunlight, 150 + sunlight)`.  Cells of other kinds inherit the
base `CellObject.update`, a no-op (`WaterDrop.update` needs the grid and is
modelled separately as `dropUpdate`). -/
def airUpdate (sunX sunY : ℤ) (c : Cell) : Cell :=
  match c with
  | Cell.air x y s last col =>
    if some (sunX, sunY) ≠ last then
      let d : ℤ := |sunX - x| + |sunY - y|
      let s2 : ℚ := 100 - (d : ℚ) * (12 / 10)
      Cell.air x y s2 (some (sunX, sunY)) (0, 91 + s2, 150 + s2)
    else Cell.air x y s last col
  | c => c

/-- The mutable state of a `WaterDrop`: position, fixed humidity, `stopped`
flag. -/
structure Drop where
  x : ℤ
  y : ℤ
  humidity : ℤ
  stopped : Bool
  deriving DecidableEq, Repr

/-- `WaterDrop.update`, transcribed literally.  It reads
`MAP.grid[self.x][self.y + 1]` — row index `self.x`, column index
`self.y + 1`, exactly as the source writes it — then overwrites
`MAP.grid[self.x][self.y]` with a fresh Air cell and either falls one row (if
the encountered cell is Air, writing itself to `MAP.grid[self.x][self.y]`
after `self.y += 1`) or sets `stopped`, adding its humidity and a recomputed
color to an encountered Dirt cell in place.  A `KeyError` on the read is
`none`.  Note there is no guard on `self.stopped`. -/
def dropUpdate (g : Grid) (d : Drop) : Option (Grid × Drop) :=
  match Grid.get g d.x (d.y + 1) with
  | none => none
  | some enc =>
    let g1 := Grid.set g d.x d.y (freshAir d.x d.y)
    match enc with
    | Cell.air _ _ _ _ _ =>
      let d2 : Drop := { d with y := d.y + 1 }
      some (Grid.set g1 d.x d2.y (Cell.waterdrop d2.x d2.y d2.humidity d2.stopped), d2)
    | Cell.dirt ex ey h _ =>
      let h2 : ℤ := h + d.humidity
      some (Grid.set g1 d.x (d.y + 1)
              (Cell.dirt ex ey h2 (((139 + h2 : ℤ) : ℚ), ((69 + h2 : ℤ) : ℚ), 19)),
            { d with stopped := true })
    | _ => some (g1, { d with stopped := true })

/-- One member cell of a plant (an entry of `self.cells`): organ kind, map
coordinates and stored color. -/
structure Member where
  kind : PKind
  x : ℤ
  y : ℤ
  color : ℚ × ℚ × ℚ
  deriving DecidableEq, Repr

/-- The `Plant` organism: ordered member-cell list and the scalar resources
`age`, `water` (a Python int) and `sunlight` (a Python float once income has
been added). -/
structure Plant where
  cells : List Member
  age : ℤ
  water : ℤ
  sunlight : ℚ
  deriving DecidableEq, Repr

/-- The eight `Direction` deltas `(dx, dy)`, in enum declaration order:
UP, DOWN, LEFT, RIGHT, LEFT_UP, LEFT_DOWN, RIGHT_UP, RIGHT_DOWN. -/
def directions : List (ℤ × ℤ) :=
  [(0, -1), (0, 1), (-1, 0), (1, 0), (-1, -1), (-1, 1), (1, -1), (1, 1)]

/-- `CellObject.get_adjacent_cells` for a member at `(x, y)`: the in-bounds
neighbours in the eight directions, each read as `MAP.grid[ny][nx]`. -/
def cellAdjacent (g : Grid) (x y : ℤ) : List Cell :=
  directions.filterMap fun dxy =>
    let nx := x + dxy.1
    let ny := y + dxy.2
    if 0 ≤ nx ∧ nx < MAP_WIDTH ∧ 0 ≤ ny ∧ ny < MAP_HEIGHT then some (g ny nx) else none

/-- `ComplexObject.get_adjacent_cells`: the concatenation, member by member,
of every member cell's adjacency list (duplicates kept, as in the source). -/
def adjacentCells (g : Grid) (p : Plant) : List Cell :=
  p.cells.flatMap fun m => cellAdjacent g m.x m.y

/-- Stable insertion used by `stableSort`: the new element goes in front of
the first entry it compares `le` to, so earlier elements with an equal key
stay in front of it. -/
def sortInsert (le : α → α → Bool) (a : α) : List α → List α
  | [] => [a]
  | b :: bs => if le a b then a :: b :: bs else b :: sortInsert le a bs

/-- Stable insertion sort.  Python's `list.sort(key=...)` is a stable sort by
key, and for a total preorder every stable sort produces the same list, so
this models `sort` (and `sort(..., reverse=True)` with the flipped
comparison) exactly. -/
def stableSort (le : α → α → Bool) : List α → List α
  | [] => []
  | a :: as => sortInsert le a (stableSort le as)

/-- The stem members of a plant (the `isinstance(cell, Stem)` filter). -/
def stemsOf (p : Plant) : List Member :=
  p.cells.filter fun m => m.kind == PKind.stem

/-- The seed members of a plant (the `isinstance(cell, Seed)` filter). -/
def seedsOf (p : Plant) : List Member :=
  p.cells.filter fun m => m.kind == PKind.seed

/-- The color a newly grown stem at row `y2` receives:
`(0, 255 - new_stem.y, 0)`. -/
def stemColor (y2 : ℤ) : ℚ × ℚ × ℚ :=
  (0, ((255 - y2 : ℤ) : ℚ), 0)

/-- `Plant.grow_stem`.  When stem members exist they are sorted by `y`
ascending and the topmost one is extended one row up (`y - 1`), provided its
`y > 0`; the new stem is appended once inside the branch and, because
`new_stem is not None`, appended a second time at the end.  With no stems the
first seed is extended instead, appended only once (by the final append).
`[0]` of an empty seed list, an `IndexError`, is `none`. -/
def grow_stem (p : Plant) : Option Plant :=
  let stems := stemsOf p
  if stems.isEmpty then
    match seedsOf p with
    | [] => none
    | s :: _ =>
      if 0 < s.y then
        some { p with cells := p.cells ++ [⟨PKind.stem, s.x, s.y - 1, stemColor (s.y - 1)⟩] }
      else some p
  else
    match stableSort (fun a b => a.y ≤ b.y) stems with
    | [] => some p
    | s :: _ =>
      if 0 < s.y then
        some { p with cells := p.cells ++
          [⟨PKind.stem, s.x, s.y - 1, stemColor (s.y - 1)⟩,
           ⟨PKind.stem, s.x, s.y - 1, stemColor (s.y - 1)⟩] }
      else some p

/-- The coordinates of the Air cells in a plant's adjacency list, in order
(each Air cell's own stored `x`, `y`). -/
def airCoords (g : Grid) (p : Plant) : List (ℤ × ℤ) :=
  (adjacentCells g p).filterMap fun c =>
    match c with
    | Cell.air x y _ _ _ => some (x, y)
    | _ => none

/-- `Plant.grow_leaf`: collect the adjacent Air cells, sort them by `y`
descending (stable, `sort(key=..., reverse=True)`), and append a Leaf with
color `(0, 255, 0)` at the coordinates of the candidate at index
`randint(0, len - 1)`, modelled by `pick` modulo the length.  With no Air
candidates nothing happens. -/
def grow_leaf (g : Grid) (pick : ℕ) (p : Plant) : Plant :=
  match stableSort (fun a b => b.2 ≤ a.2) (airCoords g p) with
  | [] => p
  | a :: rest =>
    let chosen := (a :: rest).getD (pick % (a :: rest).length) a
    { p with cells := p.cells ++ [⟨PKind.leaf, chosen.1, chosen.2, (0, 255, 0)⟩] }

/-- The scan loop of `Plant.grow_root`: fold over the adjacency list keeping
the highest Dirt humidity seen so far (starting from `highest_humidity = 0`)
and the list of Dirt cells attaining it, each recorded as
`(x, y, humidity)`. -/
def rootScan (cs : List Cell) : ℤ × List (ℤ × ℤ × ℤ) :=
  cs.foldl
    (fun acc c =>
      match c with
      | Cell.dirt x y h _ =>
        if acc.1 < h then (h, [(x, y, h)])
        else if h = acc.1 then (acc.1, acc.2 ++ [(x, y, h)])
        else acc
      | _ => acc)
    (0, [])

/-- `Plant.grow_root`: scan all adjacent cells for the Dirt cells of maximum
humidity (no restriction on direction or row appears in the code), pick one
with `choice` (`randint(0, len - 1)`, modelled by `pick` modulo the length),
add its humidity to the plant's `water`, and append a Root member with color
`(188, 143, 143)` at the chosen Dirt's coordinates.  With no Dirt candidates
nothing happens. -/
def grow_root (g : Grid) (pick : ℕ) (p : Plant) : Plant :=
  match (rootScan (adjacentCells g p)).2 with
  | [] => p
  | c :: rest =>
    let d := (c :: rest).getD (pick % (c :: rest).length) c
    { p with
        water := p.water + d.2.2,
        cells := p.cells ++ [⟨PKind.root, d.1, d.2.1, (188, 143, 143)⟩] }

/-- `Plant.grow`: bootstrap (`len(self.cells) == 1`) grows a stem; else if
`sunlight < water and water > 3` a `randint(1, 2)` (the oracle `r`) chooses,
when stems exist and the topmost stem has `y > 0`, between a leaf (`r = 1`)
and a stem, with no growth at all when there are no stems; otherwise a root
is grown. -/
def grow (g : Grid) (r pick : ℕ) (p : Plant) : Option Plant :=
  if p.cells.length = 1 then grow_stem p
  else if p.sunlight < (p.water : ℚ) ∧ 3 < p.water then
    let stems := stemsOf p
    if stems.isEmpty then some p
    else
      match stableSort (fun a b => a.y ≤ b.y) stems with
      | [] => some p
      | s :: _ =>
        if r = 1 ∧ 0 < s.y then some (grow_leaf g pick p)
        else grow_stem p
  else some (grow_root g pick p)

/-- The sunlight values of the Air cells in an adjacency list. -/
def airSunlights (cs : List Cell) : List ℚ :=
  cs.filterMap fun c =>
    match c with
    | Cell.air _ _ s _ _ => some s
    | _ => none

/-- The first half of `Plant.update`: `age += 1`, then
`average_sunlight = sum(...) / len(air_cells)` over the adjacent Air cells
and, when the average is positive, `sunlight += average_sunlight / 2`.
The division has no guard: `none` models the `ZeroDivisionError` raised when
the plant has no adjacent Air cell.  (The source increments `age` before the
adjacency scan; the scan does not read `age`, so the two orders give the
same function.) -/
def incomeStep (g : Grid) (p : Plant) : Option Plant :=
  let ss := airSunlights (adjacentCells g p)
  if ss.isEmpty then none
  else
    let avg : ℚ := ss.sum / (ss.length : ℚ)
    let p1 : Plant := { p with age := p.age + 1 }
    some (if 0 < avg then { p1 with sunlight := p1.sunlight + avg / 2 } else p1)

/-- The growth gate of `Plant.update`: when `water > 1 and sunlight >= 6`,
call `grow` once and then pay `water -= 2`, `sunlight -= 6`; otherwise leave
the plant untouched. -/
def gateStep (g : Grid) (r pick : ℕ) (p : Plant) : Option Plant :=
  if 1 < p.water ∧ (6 : ℚ) ≤ p.sunlight then
    (grow g r pick p).map fun q =>
      { q with water := q.water - 2, sunlight := q.sunlight - 6 }
  else some p

/-- `Plant.draw`: write every member cell into the grid at
`MAP.grid[cell.y][cell.x]`, in member-list order. -/
def drawPlant (g : Grid) (p : Plant) : Grid :=
  p.cells.foldl (fun acc m => Grid.set acc m.y m.x (Cell.organ m.kind m.x m.y m.color)) g

/-- `Plant.update`: the income step (member cell updates are no-ops), then
the growth gate, then the unconditional `self.draw()`. -/
def plantUpdate (g : Grid) (r pick : ℕ) (p : Plant) : Option (Plant × Grid) :=
  (incomeStep g p).bind fun p2 =>
    (gateStep g r pick p2).map fun q => (q, drawPlant g q)

/-- Members that are neither stems nor leaves (used to state that a growth
branch adds only stems and leaves). -/
def notLeafStem (m : Member) : Bool :=
  !(m.kind == PKind.stem || m.kind == PKind.leaf)

/-!  Concrete instances used by the witnesses, counterexamples and
evaluation theorems below.  Grids are written row-first: `fun r c => ...` is
the cell at row `r`, column `c`, that is at coordinate `(c, r)`. -/

/-- A grid of rock with one Air cell of sunlight `4` at coordinate `(5, 4)`,
directly above coordinate `(5, 5)`. -/
def gW1 : Grid := fun r c =>
  if r = 4 ∧ c = 5 then Cell.air 5 4 4 none (0, 95, 154) else Cell.rock c r

/-- A plant holding exactly its seed at `(5, 5)`, `water = 10`,
`sunlight = 10`. -/
def pW1 : Plant := ⟨[⟨PKind.seed, 5, 5, (100, 0, 0)⟩], 0, 10, 10⟩

/-- `pW1` after the income step: `age = 1`,
`sunlight = 10 + (4 / 1) / 2 = 12`. -/
def pW1b : Plant := ⟨[⟨PKind.seed, 5, 5, (100, 0, 0)⟩], 1, 10, 12⟩

/-- All Air except a Dirt cell of humidity `5` at coordinate `(0, 3)`
(row 3, column 0). -/
def gX2 : Grid := fun r c =>
  if r = 3 ∧ c = 0 then Cell.dirt 0 3 5 (149, 79, 19) else freshAir c r

/-- A falling drop at coordinate `(0, 2)`: the cell directly below it,
at `(0, 3)`, is the Dirt cell of `gX2`. -/
def dX2 : Drop := ⟨0, 2, 5, false⟩

/-- The same drop with `stopped = true`. -/
def dX2s : Drop := ⟨0, 2, 5, true⟩

/-- Rock everywhere except an Air cell at coordinate `(4, 9)`, adjacent to
both members of `pW3`. -/
def gW3 : Grid := fun r c =>
  if r = 9 ∧ c = 4 then Cell.air 4 9 3 none (0, 94, 153) else Cell.rock c r

/-- A two-member plant on an eligible tick (`water = 10 > 1`,
`sunlight = 7 ≥ 6`) with `sunlight = 7 < water = 10`. -/
def pW3 : Plant := ⟨[⟨PKind.seed, 5, 10, (100, 0, 0)⟩, ⟨PKind.stem, 5, 9, (0, 246, 0)⟩], 0, 10, 7⟩

/-- `pW3` after `grow` with `r = 1`, `pick = 0` over `gW3`: a leaf grew at
`(4, 9)`. -/
def qW3 : Plant :=
  ⟨[⟨PKind.seed, 5, 10, (100, 0, 0)⟩, ⟨PKind.stem, 5, 9, (0, 246, 0)⟩,
    ⟨PKind.leaf, 4, 9, (0, 255, 0)⟩], 0, 10, 7⟩

/-- A two-member plant on an eligible tick with
`sunlight = 12 ≥ water = 10`. -/
def pW3b : Plant := ⟨[⟨PKind.seed, 5, 10, (100, 0, 0)⟩, ⟨PKind.stem, 5, 9, (0, 246, 0)⟩], 0, 10, 12⟩

/-- Rock everywhere except a Dirt cell of humidity `7` at coordinate
`(5, 4)` — directly ABOVE the single plant member of `pX4` at `(5, 5)`. -/
def gX4 : Grid := fun r c =>
  if r = 4 ∧ c = 5 then Cell.dirt 5 4 7 (153, 83, 19) else Cell.rock c r

/-- A plant whose only member (its seed) sits at `(5, 5)`: its lowest member
row is `5`. -/
def pX4 : Plant := ⟨[⟨PKind.seed, 5, 5, (100, 0, 0)⟩], 0, 10, 10⟩

/-- A grid of rock with one Air cell of sunlight `4` at coordinate `(5, 4)`. -/
def gW5 : Grid := fun r c =>
  if r = 4 ∧ c = 5 then Cell.air 5 4 4 none (0, 95, 154) else Cell.rock c r

/-- A freshly planted seed at `(5, 5)` with `water = 10`, `sunlight = 10`. -/
def pW5 : Plant := ⟨[⟨PKind.seed, 5, 5, (100, 0, 0)⟩], 0, 10, 10⟩

/-- A grid consisting entirely of rock: no plant member has any adjacent Air
cell. -/
def gX6 : Grid := fun r c => Cell.rock c r

/-- A plant holding its seed at `(5, 5)`, fully surrounded by rock in
`gX6`. -/
def pX6 : Plant := ⟨[⟨PKind.seed, 5, 5, (100, 0, 0)⟩], 0, 10, 10⟩

/-- Rock everywhere except an Air cell at coordinate `(4, 9)` — the same row
as the stem member of `pX7`. -/
def gX7 : Grid := fun r c =>
  if r = 9 ∧ c = 4 then Cell.air 4 9 3 none (0, 94, 153) else Cell.rock c r

/-- A plant with a seed at `(5, 10)` and a stem at `(5, 9)`. -/
def pX7 : Plant := ⟨[⟨PKind.seed, 5, 10, (100, 0, 0)⟩, ⟨PKind.stem, 5, 9, (0, 246, 0)⟩], 0, 10, 10⟩

/-- Rock everywhere except an Air cell at coordinate `(3, 8)`, adjacent to
the members of `pW7`. -/
def gW7 : Grid := fun r c =>
  if r = 8 ∧ c = 3 then Cell.air 3 8 2 none (0, 93, 152) else Cell.rock c r

/-- A plant with a seed at `(4, 9)` and a stem at `(4, 8)`. -/
def pW7 : Plant := ⟨[⟨PKind.seed, 4, 9, (100, 0, 0)⟩, ⟨PKind.stem, 4, 8, (0, 247, 0)⟩], 0, 10, 10⟩

/-- A grid that is Air everywhere in bounds. -/
def gX8 : Grid := fun r c => freshAir c r

/-- A drop on the bottom row of the map, `y = MAP_HEIGHT - 1 = 159`. -/
def dX8 : Drop := ⟨0, 159, 5, false⟩

/-- A fresh Air cell at coordinate `(159, 20)`: Manhattan distance `169`
from the sun anchor `(5, 5)`. -/
def aX9 : Cell := Cell.air 159 20 0 none (0, 91, 150)

/-- A plant with a seed at `(5, 10)` and two stems at `(5, 9)` and `(5, 8)`:
the topmost stem is at row `8`. -/
def pV10 : Plant :=
  ⟨[⟨PKind.seed, 5, 10, (100, 0, 0)⟩, ⟨PKind.stem, 5, 9, (0, 246, 0)⟩,
    ⟨PKind.stem, 5, 8, (0, 247, 0)⟩], 0, 10, 10⟩

/-- A plant holding only its seed, at `(5, 10)`. -/
def pV10b : Plant := ⟨[⟨PKind.seed, 5, 10, (100, 0, 0)⟩], 0, 10, 10⟩

/-!  Helper lemmas about `stableSort` and list access. -/

theorem sortInsert_ne_nil (le : α → α → Bool) (a : α) (l : List α) :
    sortInsert le a l ≠ [] := by
  cases l with
  | nil => simp [sortInsert]
  | cons b bs =>
    unfold sortInsert
    split <;> simp

theorem mem_sortInsert (le : α → α → Bool) (a x : α) (l : List α) :
    x ∈ sortInsert le a l ↔ x = a ∨ x ∈ l := by
  induction l with
  | nil => simp [sortInsert]
  | cons b bs ih =>
    unfold sortInsert
    split
    · simp
    · simp [ih]
      tauto

theorem mem_stableSort (le : α → α → Bool) (x : α) (l : List α) :
    x ∈ stableSort le l ↔ x ∈ l := by
  induction l with
  | nil => simp [stableSort]
  | cons a as ih =>
    unfold stableSort
    rw [mem_sortInsert]
    simp [ih]

theorem stableSort_eq_nil_iff (le : α → α → Bool) (l : List α) :
    stableSort le l = [] ↔ l = [] := by
  cases l with
  | nil => simp [stableSort]
  | cons a as =>
    unfold stableSort
    simp [sortInsert_ne_nil]

theorem getD_mem : ∀ (l : List α) (n : ℕ) (d : α), n < l.length → l.getD n d ∈ l
  | a :: as, 0, d, _ => by simp
  | a :: as, n + 1, d, h => by
    simp only [List.getD_cons_succ]
    exact List.mem_cons_of_mem _ (getD_mem as n d (by simpa using h))

theorem grow_leaf_countP (g : Grid) (pick : ℕ) (p : Plant) :
    (grow_leaf g pick p).cells.countP notLeafStem = p.cells.countP notLeafStem := by
  unfold grow_leaf
  split
  · rfl
  · simp [List.countP_append, notLeafStem]

theorem grow_stem_countP (p q : Plant) (h : grow_stem p = some q) :
    q.cells.countP notLeafStem = p.cells.countP notLeafStem := by
  simp only [grow_stem] at h
  by_cases hst : (stemsOf p).isEmpty = true
  · simp only [hst, if_true] at h
    cases hsd : seedsOf p with
    | nil =>
      simp only [hsd] at h
      exact Option.noConfusion h
    | cons s rest =>
      simp only [hsd] at h
      by_cases hy : 0 < s.y
      · simp only [if_pos hy, Option.some.injEq] at h
        subst h
        simp [List.countP_append, notLeafStem]
      · simp only [if_neg hy, Option.some.injEq] at h
        subst h
        rfl
  · simp only [if_neg hst] at h
    cases hsort : stableSort (fun a b => a.y ≤ b.y) (stemsOf p) with
    | nil =>
      simp only [hsort, Option.some.injEq] at h
      subst h
      rfl
    | cons s rest =>
      simp only [hsort] at h
      by_cases hy : 0 < s.y
      · simp only [if_pos hy, Option.some.injEq] at h
        subst h
        simp [List.countP_append, notLeafStem]
      · simp only [if_neg hy, Option.some.injEq] at h
        subst h
        rfl

/-!  Claim theorems. -/

/-- Claim C2 (evaluation at the failing input): the drop `dX2` sits at
coordinate `(0, 2)` and the cell directly below it, at `(0, 3)`, is Dirt of
humidity `5`.  The claim says one update adds the drop's humidity to that
Dirt and sets `stopped`; instead `WaterDrop.update` reads the transposed
entry `grid[x][y + 1]` (coordinate `(3, 0)`, which is Air), so the drop falls
to `y = 3` with `stopped` still `false` and the Dirt below keeps humidity
`5`.  Moreover an already `stopped` drop is not left alone: lacking any
`stopped` guard, `dX2s` also moves. -/
theorem waterdrop_transposed_read_eval :
    (dropUpdate gX2 dX2).map (fun z => (z.2.y, z.2.stopped)) = some (3, false)
    ∧ (dropUpdate gX2 dX2).map (fun z => z.1 3 0) = some (Cell.dirt 0 3 5 (149, 79, 19))
    ∧ (dropUpdate gX2 dX2s).map (fun z => (z.2.y, z.2.stopped)) = some (3, true) := by
  exact ⟨rfl, rfl, rfl⟩

/-- Claim C8 (evaluation at the failing input): for a drop on the bottom row
(`y = 159`) the read `grid[self.x][self.y + 1]` asks for column `160`, which
is out of bounds; `WaterDrop.update` raises `KeyError` (modelled by `none`)
instead of being guarded. -/
theorem waterdrop_bottom_row_keyerror :
    dropUpdate gX8 dX8 = none := rfl

/-- Claim C6 (evaluation at the failing input): the plant `pX6` is
completely surrounded by rock in `gX6`, so its adjacent-Air set is empty and
`Plant.update` divides by `len(air_cells) = 0`: the update raises
`ZeroDivisionError` (modelled by `none`) instead of completing with zero
income. -/
theorem plant_update_no_air_eval :
    plantUpdate gX6 1 0 pX6 = none := rfl

/-- Claim C4 (evaluation at the failing input): every member of `pX4` is at
row `5`, and the only adjacent Dirt cell of `gX4` sits at `(5, 4)` — one row
ABOVE the plant's lowest member row.  The claim (and `grow_root`'s own
docstring, "Can only grow down, right or left") would leave the plant
unchanged; the code has no such restriction and grows a Root at `(5, 4)`,
adding the Dirt's humidity `7` to `water` (the conservation part of the
claim does hold). -/
theorem grow_root_upward_eval :
    pX4.cells.all (fun m => 5 ≤ m.y) = true
    ∧ grow_root gX4 0 pX4 =
      { pX4 with water := 17, cells := pX4.cells ++ [⟨PKind.root, 5, 4, (188, 143, 143)⟩] } := by
  exact ⟨by decide, by decide⟩

/-- Claim C7 counterexample: `pX7` has a Stem member at row `9`, and the
Air cell at `(4, 9)` — the same row — is the only leaf candidate;
`grow_leaf` places the Leaf there, so the chosen leaf coordinate CAN share a
row with an existing Stem (the code never excludes stem rows). -/
theorem grow_leaf_stem_row_counterexample :
    pX7.cells.any (fun m => m.kind == PKind.stem && m.y == 9) = true
    ∧ grow_leaf gX7 0 pX7
        = { pX7 with cells := pX7.cells ++ [⟨PKind.leaf, 4, 9, (0, 255, 0)⟩] } := by
  exact ⟨by decide, by decide⟩

/-- Claim C9 counterexample: one `Air.update` of the cell `aX9` at
`(159, 20)` with the sun anchored at its initial position `(5, 5)` stores
`sunlight = 100 - 1.2 * 169 = -102.8` and hence the stored color
`(0, 91 - 102.8, 150 - 102.8)`, whose green channel is negative: the STORED
color is not kept within `[0, 255]`. -/
theorem stored_color_counterexample :
    (storedColor (airUpdate 5 5 aX9)).2.1 < 0 := by
  have h : airUpdate 5 5 aX9
      = Cell.air 159 20 (-(514 / 5)) (some (5, 5)) (0, -(59 / 5), 236 / 5) := by
    rw [aX9, airUpdate]
    rw [if_pos (by decide)]
    norm_num
  rw [h]
  norm_num [storedColor]

/-- Claim C9 as amended: stored colors may leave `[0, 255]`; the clamping
invariant holds for the displayed color, because every draw passes the
stored color through `fix_color`, whose three output channels always lie
within `[0, 255]`. -/
theorem fix_color_clamped (c : ℚ × ℚ × ℚ) :
    0 ≤ (fix_color c).1 ∧ (fix_color c).1 ≤ 255
    ∧ 0 ≤ (fix_color c).2.1 ∧ (fix_color c).2.1 ≤ 255
    ∧ 0 ≤ (fix_color c).2.2 ∧ (fix_color c).2.2 ≤ 255 := by
  unfold fix_color
  refine ⟨le_max_left _ _, max_le (by norm_num) (min_le_left _ _),
    le_max_left _ _, max_le (by norm_num) (min_le_left _ _),
    le_max_left _ _, max_le (by norm_num) (min_le_left _ _)⟩

/-- Claim C3: on an eligible growth tick — `grow` is only ever invoked under
the gate `water > 1 and sunlight >= 6`, on the very values the gate checked —
a plant with more than one member cell whose `sunlight` is strictly below its
`water` takes the stem/leaf branch: whatever `grow` returns has added only
Stem or Leaf members (the count of members that are neither is preserved, so
in particular no Root is ever grown); conversely, when `sunlight` is not
below `water`, `grow` takes the root-growth branch.  Eligibility makes the
code's extra `water > 3` conjunct vacuous: `6 ≤ sunlight < water` forces
`6 < water`. -/
theorem grow_branch_eligible (g : Grid) (r pick : ℕ) (p : Plant)
    (hlen : 1 < p.cells.length)
    (hgate : 1 < p.water ∧ (6 : ℚ) ≤ p.sunlight) :
    (p.sunlight < (p.water : ℚ) →
      ∀ q, grow g r pick p = some q →
        q.cells.countP notLeafStem = p.cells.countP notLeafStem)
    ∧ (¬ p.sunlight < (p.water : ℚ) →
      grow g r pick p = some (grow_root g pick p)) := by
  have hlen1 : p.cells.length ≠ 1 := by omega
  constructor
  · intro hcond q hq
    have hw6 : (6 : ℚ) < (p.water : ℚ) := lt_of_le_of_lt hgate.2 hcond
    have hw3 : 3 < p.water := by
      have h36 : (3 : ℚ) < (p.water : ℚ) := lt_trans (by norm_num) hw6
      exact_mod_cast h36
    simp only [grow, if_neg hlen1, if_pos (And.intro hcond hw3)] at hq
    by_cases hst : (stemsOf p).isEmpty = true
    · simp only [hst, if_true, Option.some.injEq] at hq
      subst hq
      rfl
    · simp only [if_neg hst] at hq
      cases hsort : stableSort (fun a b => a.y ≤ b.y) (stemsOf p) with
      | nil =>
        simp only [hsort, Option.some.injEq] at hq
        subst hq
        rfl
      | cons s rest =>
        simp only [hsort] at hq
        by_cases hr : r = 1 ∧ 0 < s.y
        · simp only [if_pos hr, Option.some.injEq] at hq
          subst hq
          exact grow_leaf_countP g pick p
        · simp only [if_neg hr] at hq
          exact grow_stem_countP p q hq
  · intro hcond
    have hnc : ¬(p.sunlight < (p.water : ℚ) ∧ 3 < p.water) := fun hh => hcond hh.1
    simp only [grow, if_neg hlen1, if_neg hnc]

/-- Witness for claim C3 at concrete inputs: over `gW3`, `grow` on the
eligible `pW3` (`sunlight = 7 < water = 10`) returns `qW3` — a leaf grew,
preserving the count of non-Stem/Leaf members — and on the eligible `pW3b`
(`sunlight = 12 ≥ water = 10`) `grow` takes the root branch. -/
theorem grow_branch_eligible_witness :
    qW3.cells.countP notLeafStem = pW3.cells.countP notLeafStem
    ∧ grow gW3 2 0 pW3b = some (grow_root gW3 0 pW3b) :=
  ⟨(grow_branch_eligible gW3 1 0 pW3 (by decide) (by decide)).1 (by decide) qW3 (by decide),
   (grow_branch_eligible gW3 2 0 pW3b (by decide) (by decide)).2 (by decide)⟩

/-- Claim C7 as amended: the leaf-growth candidate set is ALL Air cells
adjacent to the plant's members — no stem-row exclusion appears in the code
(the descending-`y` sort is present but the pick is random among all
candidates).  With no candidates `grow_leaf` is a no-op; otherwise it
appends exactly one Leaf whose coordinates are those of some adjacent Air
cell (and, per the counterexample, possibly on the same row as a Stem). -/
theorem grow_leaf_amended (g : Grid) (pick : ℕ) (p : Plant) :
    (airCoords g p = [] → grow_leaf g pick p = p)
    ∧ (airCoords g p ≠ [] →
      ∃ xy : ℤ × ℤ, xy ∈ airCoords g p ∧
        grow_leaf g pick p
          = { p with cells := p.cells ++ [⟨PKind.leaf, xy.1, xy.2, (0, 255, 0)⟩] }) := by
  constructor
  · intro h
    simp only [grow_leaf, h, stableSort]
  · intro h
    cases hs : stableSort (fun a b => b.2 ≤ a.2) (airCoords g p) with
    | nil => exact absurd ((stableSort_eq_nil_iff _ _).mp hs) h
    | cons a rest =>
      refine ⟨(a :: rest).getD (pick % (a :: rest).length) a, ?_, ?_⟩
      · have hm : (a :: rest).getD (pick % (a :: rest).length) a ∈ a :: rest :=
          getD_mem _ _ _ (Nat.mod_lt _ (by simp))
        have hsub : ∀ z : ℤ × ℤ, z ∈ a :: rest → z ∈ airCoords g p := by
          intro z hz
          rw [← hs] at hz
          exact (mem_stableSort _ _ _).mp hz
        exact hsub _ hm
      · simp only [grow_leaf, hs]

/-- Witness for the amended claim C7 at a concrete input: `pW7` over `gW7`
has a nonempty Air candidate set, and `grow_leaf` appends one Leaf at the
coordinates of one of those candidates. -/
theorem grow_leaf_amended_witness :
    airCoords gW7 pW7 ≠ []
    ∧ ∃ xy : ℤ × ℤ, xy ∈ airCoords gW7 pW7 ∧
        grow_leaf gW7 4 pW7
          = { pW7 with cells := pW7.cells ++ [⟨PKind.leaf, xy.1, xy.2, (0, 255, 0)⟩] } :=
  ⟨by decide, (grow_leaf_amended gW7 4 pW7).2 (by decide)⟩

/-- Claim C10: when stem members exist and the topmost one (the head of the
`y`-ascending stable sort, i.e. the stem of smallest `y`) has `y > 0`,
`grow_stem` appends the one new Stem to the member list TWICE — once inside
the branch and once by the trailing `if new_stem is not None` append; when no
stem exists and the first seed has `y > 0`, the new Stem is appended exactly
once. -/
theorem grow_stem_append_count (p : Plant) :
    (∀ s rest, stemsOf p ≠ [] →
      stableSort (fun a b => a.y ≤ b.y) (stemsOf p) = s :: rest →
      0 < s.y →
      grow_stem p = some { p with cells := p.cells ++
        [⟨PKind.stem, s.x, s.y - 1, stemColor (s.y - 1)⟩,
         ⟨PKind.stem, s.x, s.y - 1, stemColor (s.y - 1)⟩] })
    ∧ (∀ s rest, stemsOf p = [] → seedsOf p = s :: rest → 0 < s.y →
      grow_stem p = some { p with cells := p.cells ++
        [⟨PKind.stem, s.x, s.y - 1, stemColor (s.y - 1)⟩] }) := by
  constructor
  · intro s rest hne hsort hy
    have hst : (stemsOf p).isEmpty = false := by simp [hne]
    simp only [grow_stem, hst, Bool.false_eq_true, if_false, hsort, if_pos hy]
  · intro s rest hemp hsd hy
    have hst : (stemsOf p).isEmpty = true := by simp [hemp]
    simp only [grow_stem, hst, if_true, hsd, if_pos hy]

/-- Witness for claim C10 at concrete inputs: `pV10` (topmost stem at row
`8`) gains the new Stem twice; `pV10b` (seed only, at row `10`) gains it
once. -/
theorem grow_stem_append_count_witness :
    grow_stem pV10 = some { pV10 with cells := pV10.cells ++
      [⟨PKind.stem, 5, 7, stemColor 7⟩, ⟨PKind.stem, 5, 7, stemColor 7⟩] }
    ∧ grow_stem pV10b = some { pV10b with cells := pV10b.cells ++
      [⟨PKind.stem, 5, 9, stemColor 9⟩] } := by
  constructor
  · exact (grow_stem_append_count pV10).1 ⟨PKind.stem, 5, 8, (0, 247, 0)⟩
      [⟨PKind.stem, 5, 9, (0, 246, 0)⟩] (by decide) (by decide) (by decide)
  · exact (grow_stem_append_count pV10b).2 ⟨PKind.seed, 5, 10, (100, 0, 0)⟩
      [] (by decide) (by decide) (by decide)

/-- Claim C1: the growth gate of `Plant.update`.  Given that the income step
completed (`incomeStep g p = some p2`), if `water > 1` and `sunlight ≥ 6`
hold of `p2` then the whole update equals exactly one invocation of `grow`
followed by the fixed cost `water -= 2`, `sunlight -= 6` (and the final
draw); otherwise the update returns `p2` untouched by the gate — no growth,
no cost. -/
theorem growth_gate_cost (g : Grid) (r pick : ℕ) (p p2 : Plant)
    (h : incomeStep g p = some p2) :
    (1 < p2.water ∧ (6 : ℚ) ≤ p2.sunlight →
      plantUpdate g r pick p = (grow g r pick p2).map fun q =>
        ({ q with water := q.water - 2, sunlight := q.sunlight - 6 },
         drawPlant g { q with water := q.water - 2, sunlight := q.sunlight - 6 }))
    ∧ (¬(1 < p2.water ∧ (6 : ℚ) ≤ p2.sunlight) →
      plantUpdate g r pick p = some (p2, drawPlant g p2)) := by
  constructor <;> intro hc
  · unfold plantUpdate
    rw [h]
    show (gateStep g r pick p2).map (fun q => (q, drawPlant g q)) = _
    unfold gateStep
    rw [if_pos hc]
    cases grow g r pick p2 with
    | none => rfl
    | some q => rfl
  · unfold plantUpdate
    rw [h]
    show (gateStep g r pick p2).map (fun q => (q, drawPlant g q)) = _
    unfold gateStep
    rw [if_neg hc]
    rfl

/-- Witness for claim C1 at a concrete input: `pW1` over `gW1` passes the
income step (`sunlight` becomes `12`), the gate opens (`10 > 1`, `12 ≥ 6`),
and the update is one `grow` plus the `(2, 6)` cost. -/
theorem growth_gate_cost_witness :
    plantUpdate gW1 1 0 pW1 = (grow gW1 1 0 pW1b).map fun q =>
      ({ q with water := q.water - 2, sunlight := q.sunlight - 6 },
       drawPlant gW1 { q with water := q.water - 2, sunlight := q.sunlight - 6 }) := by
  have h : incomeStep gW1 pW1 = some pW1b := by
    have hss : airSunlights (adjacentCells gW1 pW1) = [4] := by decide
    simp only [incomeStep, hss]
    norm_num [pW1, pW1b]
  exact (growth_gate_cost gW1 1 0 pW1 pW1b h).1 (by decide)

/-- Helper for claim C5: `grow` on a plant whose member list is exactly one
seed at `(x, y)` with `y > 0` takes the bootstrap branch and appends one Stem
at `(x, y - 1)`. -/
theorem grow_single_seed (g : Grid) (r pick : ℕ) (q : Plant) (x y : ℤ) (col : ℚ × ℚ × ℚ)
    (hc : q.cells = [⟨PKind.seed, x, y, col⟩]) (hy : 0 < y) :
    grow g r pick q
      = some { q with cells := q.cells ++ [⟨PKind.stem, x, y - 1, stemColor (y - 1)⟩] } := by
  have hlen : q.cells.length = 1 := by rw [hc]; rfl
  have hstm : stemsOf q = [] := by simp [stemsOf, hc]
  have hsd : seedsOf q = [⟨PKind.seed, x, y, col⟩] := by simp [seedsOf, hc]
  simp only [grow, hlen, if_pos]
  simp only [grow_stem, hstm, List.isEmpty_nil, if_true, hsd, if_pos hy]

/-- Claim C5: a plant whose member list is exactly its seed at `(x, y)` with
`y > 0`, `water = 10` and `sunlight = 10`, with at least one adjacent Air
cell, passes the gate on its first update tick and grows a Stem directly
above the seed, ending with `water = 10 - 2 = 8` and `sunlight = s2 - 6`
where `s2 ≥ 10` is the post-income sunlight. -/
theorem bootstrap_first_tick (g : Grid) (r pick : ℕ) (x y : ℤ) (col : ℚ × ℚ × ℚ)
    (p : Plant)
    (hc : p.cells = [⟨PKind.seed, x, y, col⟩]) (hy : 0 < y)
    (hw : p.water = 10) (hs : p.sunlight = 10)
    (hair : airSunlights (adjacentCells g p) ≠ []) :
    ∃ s2 : ℚ, 10 ≤ s2
      ∧ incomeStep g p = some { p with age := p.age + 1, sunlight := s2 }
      ∧ plantUpdate g r pick p = some
          (⟨p.cells ++ [⟨PKind.stem, x, y - 1, stemColor (y - 1)⟩], p.age + 1, 8, s2 - 6⟩,
           drawPlant g
             ⟨p.cells ++ [⟨PKind.stem, x, y - 1, stemColor (y - 1)⟩], p.age + 1, 8, s2 - 6⟩) := by
  have hemp : (airSunlights (adjacentCells g p)).isEmpty = false := by simp [hair]
  set avg : ℚ :=
    (airSunlights (adjacentCells g p)).sum / ((airSunlights (adjacentCells g p)).length : ℚ)
    with havg
  set s2 : ℚ := if 0 < avg then p.sunlight + avg / 2 else p.sunlight with hs2
  have h10 : 10 ≤ s2 := by
    rw [hs2]
    by_cases hpos : 0 < avg
    · rw [if_pos hpos, hs]
      have hhalf : 0 < avg / 2 := half_pos hpos
      linarith
    · rw [if_neg hpos, hs]
  have hinc : incomeStep g p = some { p with age := p.age + 1, sunlight := s2 } := by
    simp only [incomeStep, hemp, Bool.false_eq_true, if_false]
    rw [← havg, hs2]
    by_cases hpos : 0 < avg
    · rw [if_pos hpos, if_pos hpos]
    · rw [if_neg hpos, if_neg hpos]
  refine ⟨s2, h10, hinc, ?_⟩
  unfold plantUpdate
  rw [hinc]
  show (gateStep g r pick { p with age := p.age + 1, sunlight := s2 }).map
    (fun q => (q, drawPlant g q)) = _
  unfold gateStep
  have hcond : 1 < ({ p with age := p.age + 1, sunlight := s2 } : Plant).water
      ∧ (6 : ℚ) ≤ ({ p with age := p.age + 1, sunlight := s2 } : Plant).sunlight := by
    constructor
    · show 1 < p.water
      rw [hw]
      norm_num
    · show (6 : ℚ) ≤ s2
      linarith
  rw [if_pos hcond]
  have hg := grow_single_seed g r pick { p with age := p.age + 1, sunlight := s2 } x y col
    (show ({ p with age := p.age + 1, sunlight := s2 } : Plant).cells = _ from hc) hy
  rw [hg]
  show some _ = some _
  rw [hw]
  norm_num

/-- Witness for claim C5 at a concrete input: the freshly planted `pW5` over
`gW5` grows a Stem at `(5, 4)` on its first tick. -/
theorem bootstrap_first_tick_witness :
    ∃ s2 : ℚ, 10 ≤ s2
      ∧ incomeStep gW5 pW5 = some { pW5 with age := pW5.age + 1, sunlight := s2 }
      ∧ plantUpdate gW5 2 3 pW5 = some
          (⟨pW5.cells ++ [⟨PKind.stem, 5, 4, stemColor 4⟩], pW5.age + 1, 8, s2 - 6⟩,
           drawPlant gW5
             ⟨pW5.cells ++ [⟨PKind.stem, 5, 4, stemColor 4⟩], pW5.age + 1, 8, s2 - 6⟩) :=
  bootstrap_first_tick gW5 2 3 5 5 (100, 0, 0) pW5 rfl (by decide) rfl rfl (by decide)

end PlantSim
